import Mathlib

/-!
Verification development for the legacy BHMM force-spectroscopy code.

The embedding covers `bhmm/hmm_class.py` (the `HMM` class: construction and
validation, the stationary-distribution query, `count_matrix`,
`generate_synthetic_state_trajectory`, `timescales`) and
`bhmm/init/discrete.py` (`initial_model_discrete`).

Modelling conventions:
* Python floats are embedded as `ℚ` (exact rationals standing for the real
  values the code manipulates); complex numpy entries as pairs `ℚ × ℚ` of
  real and imaginary components.
* The external `pyemma` analysis routines (`stationary_distribution`,
  `is_reversible`, `rdl_decomposition`, `np.linalg.inv`, `np.random.choice`)
  are external collaborators: they are passed in as explicit function
  parameters (`MsmAna`, `np_inv`, `choice`), so every theorem quantifies over
  any implementation of the collaborator interface.
* `is_transition_matrix` is modelled concretely from the spec's MarkovAnalysis
  interface description (square matrix, non-negative entries, row sums within
  tolerance of 1; anything that is not a 2-d matrix is not a transition
  matrix).
* Python `assert` failures and raised exceptions are modelled as
  `Except.error` with the source error message.
-/

attribute [local semireducible] Rat.add Rat.sub Rat.mul Rat.inv

/-- Complex numpy entry: real and imaginary component. -/
abbrev Cq := ℚ × ℚ

/-- Dynamically-typed Python value, as far as the claims need it: the broken
call site `HMM(nstates, A, output_model)` in `bhmm/init/discrete.py` passes an
`int`, a matrix and an output-model object into positional slots of
`HMM.__init__`, so the constructor arguments must range over all three. -/
inductive PyVal where
  | scalarInt (n : Int)
  | matrix (rows : List (List ℚ))
  | discreteOM (B : List (List ℚ))
deriving DecidableEq

/-- Python exceptions raised by the embedded code. `invalidLength` is the
error the spec names for `generate_synthetic_state_trajectory`; it is included
so that claims about it can be stated, but the code never raises it. -/
inductive PyError where
  | assertionError (msg : String)
  | valueError (msg : String)
  | indexError (msg : String)
  | runtimeError (msg : String)
  | invalidLength
deriving DecidableEq

/-- Normalization mode passed to the external `rdl_decomposition`
(`norm='reversible'` or `norm='standard'` in `hmm_class.py` lines 102/108). -/
inductive RdlNorm where
  | reversible
  | standard
deriving DecidableEq

/-- External MarkovAnalysis collaborator (pyemma), per the spec's capability
set: stationary-distribution solver, reversibility test and eigendecomposition
are consumed, never defined, by this repository. -/
structure MsmAna where
  stationary_distribution : List (List ℚ) → List ℚ
  is_reversible : List (List ℚ) → Bool
  rdl_decomposition : List (List ℚ) → RdlNorm → (List (List Cq) × List (List Cq) × List (List Cq))

/-- Absolute tolerance of `np.allclose` (numpy default `atol = 1e-8`). -/
def npAtol : ℚ := 1 / 100000000

/-- Relative tolerance of `np.allclose` (numpy default `rtol = 1e-5`). -/
def npRtol : ℚ := 1 / 100000

/-- Model of `np.allclose(a, b)` with the numpy defaults:
`|a_i - b_i| <= atol + rtol * |b_i|` elementwise (mismatched lengths are
treated as not close). -/
def np_allclose (a b : List ℚ) : Bool :=
  (a.length == b.length) &&
    (a.zip b).all (fun p => decide (|p.1 - p.2| ≤ npAtol + npRtol * |p.2|))

/-- Model of `Pi / np.sum(Pi)` (`hmm_class.py` line 78). -/
def pynormalize (p : List ℚ) : List ℚ := p.map (fun x => x / p.sum)

/-- Modelled from the spec's MarkovAnalysis interface: `isTransitionMatrix`
holds of square matrices with non-negative entries whose row sums deviate from
1 at most by tolerance; a 0-d (scalar) input is not a transition matrix. This
external pyemma predicate is the assertion target of `hmm_class.py` line 65. -/
def is_transition_matrix (v : PyVal) : Bool :=
  match v with
  | .matrix rows =>
      (rows.length != 0) &&
      rows.all (fun r =>
        (r.length == rows.length) && r.all (fun x => decide (0 ≤ x))) &&
      rows.all (fun r => decide (|r.sum - 1| ≤ npAtol))
  | _ => false

/-- Truncation to the real components, modelling `X.real` on a complex numpy
array (`hmm_class.py` lines 104-106). -/
def mat_real (M : List (List Cq)) : List (List Cq) :=
  M.map (fun r => r.map (fun z => (z.1, 0)))

/-- Model of `np.diag` on a square matrix (`hmm_class.py` line 109). -/
def diag (M : List (List Cq)) : List Cq :=
  M.enum.map (fun p => p.2.getD p.1 (0, 0))

/-- The embedded `HMM` entity (`bhmm/hmm_class.py`): the fields stored by
`HMM.__init__`. `lag` and `output_model` are stored untyped, exactly as Python
stores whatever was passed positionally. -/
structure HMM where
  Tij : List (List ℚ)
  nstates : ℕ
  lag : PyVal
  output_model : PyVal
  hidden_state_trajectories : Option (List (List ℕ))
  stationary : Bool
  Pi : List ℚ
  reversible : Bool
  R : List (List Cq)
  D : List (List Cq)
  L : List (List Cq)
  eigenvalues : List Cq
deriving DecidableEq

/-- Validation and renormalization of a supplied initial distribution
(`hmm_class.py` lines 76-78): negative entries fail the assertion, otherwise
the vector is renormalized to sum to 1. -/
def checkPi : Option (List ℚ) → Except PyError (Option (List ℚ))
  | none => Except.ok none
  | some p =>
      if p.all (fun x => decide (0 ≤ x)) then Except.ok (some (pynormalize p))
      else Except.error (PyError.assertionError "Given initial distribution contains negative elements.")

/-- Resolution of the stored initial distribution (`hmm_class.py` lines
80-93): stationary models adopt the transition matrix's stationary
distribution or check the supplied one against it with `np.allclose`; free
models keep the supplied vector, falling back to the stationary distribution
when none was supplied. -/
def resolvePi (ana : MsmAna) (rows : List (List ℚ)) (Pin : Option (List ℚ))
    (stationary : Bool) : Except PyError (List ℚ) :=
  if stationary then
    match Pin with
    | none => Except.ok (ana.stationary_distribution rows)
    | some p =>
        if np_allclose p (ana.stationary_distribution rows) then Except.ok p
        else Except.error (PyError.assertionError "Stationary HMM requested, but given distribution is not the stationary distribution of the given transition matrix.")
  else
    match Pin with
    | none => Except.ok (ana.stationary_distribution rows)
    | some p => Except.ok p

/-- Reversibility assertion (`hmm_class.py` lines 96-98). -/
def checkReversible (ana : MsmAna) (rows : List (List ℚ)) (reversible : Bool) :
    Except PyError Unit :=
  if reversible && !(ana.is_reversible rows) then
    Except.error (PyError.assertionError "Reversible HMM requested, but given transition matrix is not reversible.")
  else Except.ok ()

/-- Eager eigendecomposition (`hmm_class.py` lines 100-108): the reversible
branch calls the external decomposition with `norm='reversible'` and truncates
`R`, `D`, `L` to their real components; the non-reversible branch calls it
with `norm='standard'` and stores the returned (possibly complex) arrays
unmodified. -/
def eigendecomp (ana : MsmAna) (rows : List (List ℚ)) (reversible : Bool) :
    List (List Cq) × List (List Cq) × List (List Cq) :=
  if reversible then
    let RDL := ana.rdl_decomposition rows RdlNorm.reversible
    (mat_real RDL.1, mat_real RDL.2.1, mat_real RDL.2.2)
  else
    ana.rdl_decomposition rows RdlNorm.standard

/-- The embedded `HMM.__init__` (`hmm_class.py` lines 58-109), in source
order: stochastic-matrix assertion, initial-distribution validation and
renormalization, stationary/free resolution, reversibility assertion, eager
eigendecomposition, and `eigenvalues = np.diag(D)`. The positional parameter
order `(Tij, output_model, lag, Pi, stationary, reversible)` is the source's;
`Tij` ranges over dynamically-typed values because the call site in
`bhmm/init/discrete.py` passes an `int` there. -/
def HMM.construct (ana : MsmAna) (Tij : PyVal) (output_model : PyVal) (lag : PyVal)
    (Pi : Option (List ℚ)) (stationary : Bool) (reversible : Bool) :
    Except PyError HMM :=
  if is_transition_matrix Tij = true then
    match Tij with
    | .matrix rows =>
        match checkPi Pi with
        | .error e => .error e
        | .ok Pin =>
            match resolvePi ana rows Pin stationary with
            | .error e => .error e
            | .ok piRes =>
                match checkReversible ana rows reversible with
                | .error e => .error e
                | .ok _ =>
                    let RDL := eigendecomp ana rows reversible
                    .ok { Tij := rows, nstates := rows.length,
                          lag := lag, output_model := output_model,
                          hidden_state_trajectories := none,
                          stationary := stationary, Pi := piRes,
                          reversible := reversible,
                          R := RDL.1, D := RDL.2.1, L := RDL.2.2,
                          eigenvalues := diag RDL.2.1 }
    | _ => .error (PyError.assertionError "Given transition matrix is not a stochastic matrix")
  else .error (PyError.assertionError "Given transition matrix is not a stochastic matrix")

/-- The `initial_distribution` property (`hmm_class.py` lines 153-155). -/
def HMM.initial_distribution (m : HMM) : List ℚ := m.Pi

/-- The `stationary_distribution` property (`hmm_class.py` lines 157-162):
returns `self._Pi` for a stationary model and raises
`ValueError('HMM is not stationary')` for a free one. -/
def HMM.stationary_distribution (m : HMM) : Except PyError (List ℚ) :=
  if m.stationary then Except.ok m.Pi
  else Except.error (PyError.valueError "HMM is not stationary")

/-- The `nstates × nstates` zero matrix `np.zeros((nstates, nstates))`
(`hmm_class.py` line 245). -/
def zeroMatrix (n : ℕ) : List (List ℚ) :=
  List.replicate n (List.replicate n 0)

/-- One increment `C[i, j] += 1` (`hmm_class.py` line 248); indices are hidden
states, in `range(nstates)` per the data model. -/
def bump (C : List (List ℚ)) (i j : ℕ) : List (List ℚ) :=
  C.set i ((C.getD i []).set j ((C.getD i []).getD j 0 + 1))

/-- The inner loop of `count_matrix` over one trajectory `S`
(`hmm_class.py` lines 247-248): one increment per consecutive pair
`(S[t], S[t+1])`. -/
def countTransAdd (C : List (List ℚ)) (S : List ℕ) : List (List ℚ) :=
  (S.zip S.tail).foldl (fun acc p => bump acc p.1 p.2) C

/-- The `count_matrix` method (`hmm_class.py` lines 219-249): raises
`RuntimeError` when `hidden_state_trajectories is None`, otherwise tallies all
one-step transitions over all assigned trajectories into a zero-initialized
`nstates × nstates` matrix. -/
def HMM.count_matrix (m : HMM) : Except PyError (List (List ℚ)) :=
  match m.hidden_state_trajectories with
  | none => Except.error (PyError.runtimeError "HMM model does not have a hidden state trajectory.")
  | some trajs => Except.ok (trajs.foldl (fun C S => countTransAdd C S) (zeroMatrix m.nstates))

/-- The sampling loop of `generate_synthetic_state_trajectory`
(`hmm_class.py` lines 383-384): `k` further samples, each drawn by the
external `np.random.choice` (the `choice` parameter, indexed by the step
number) from the transition-matrix row of the previous state. -/
def genLoop (Tij : List (List ℚ)) (choice : ℕ → List ℚ → ℕ) :
    ℕ → ℕ → ℕ → List ℕ
  | _prev, _t, 0 => []
  | prev, t, Nat.succ k =>
      let nxt := choice t (Tij.getD prev [])
      nxt :: genLoop Tij choice nxt (t + 1) k

/-- The `generate_synthetic_state_trajectory` method (`hmm_class.py` lines
347-386). There is no length validation in the source: a negative `length`
makes `np.zeros([length])` raise `ValueError('negative dimensions are not
allowed')`, and `length = 0` makes the first-sample assignment `states[0] = ...`
raise an IndexError on the empty array. Otherwise the first state is drawn
from `initial_Pi` if given, else from the model's initial distribution, and
each subsequent state from the transition-matrix row of the previous state.
The external `np.random.choice` is the `choice` parameter (step index,
probability vector to chosen index; its results lie in `range(nstates)`). -/
def HMM.generate_synthetic_state_trajectory (m : HMM) (length : Int)
    (choice : ℕ → List ℚ → ℕ) (initial_Pi : Option (List ℚ)) :
    Except PyError (List ℕ) :=
  if length < 0 then
    Except.error (PyError.valueError "negative dimensions are not allowed")
  else
    match length.toNat with
    | 0 => Except.error (PyError.indexError "index 0 is out of bounds for axis 0 with size 0")
    | Nat.succ k =>
        let s0 := choice 0 (match initial_Pi with | some p => p | none => m.Pi)
        Except.ok (s0 :: genLoop m.Tij choice s0 1 k)

/-- Numeric reading of a stored dynamically-typed field (the lag is stored
untyped; its numeric value is what `timescales` consumes). -/
def PyVal.toQ : PyVal → ℚ
  | .scalarInt n => (n : ℚ)
  | _ => 0

/-- Magnitude of a complex entry. -/
noncomputable def cq_abs (z : Cq) : ℝ :=
  Real.sqrt ((z.1 : ℝ) ^ 2 + (z.2 : ℝ) ^ 2)

/-- Modelled from the spec: the external
`pyemma.msm.analysis.dense.decomposition.timescales_from_eigenvalues` routine
(not part of this repository), per the spec's formula: one relaxation time
`-tau / ln |λ_i|` per eigenvalue. -/
noncomputable def timescales_from_eigenvalues (eigs : List Cq) (tau : ℚ) : List ℝ :=
  eigs.map (fun l => -(tau : ℝ) / Real.log (cq_abs l))

/-- The `timescales` method (`hmm_class.py` lines 203-217): delegate to the
external per-eigenvalue routine with `tau = self._lag`, then return `ts[1:]`,
dropping the entry of the leading eigenvalue. -/
noncomputable def HMM.timescales (m : HMM) : List ℝ :=
  (timescales_from_eigenvalues m.eigenvalues m.lag.toQ).drop 1

/-- Results of the external fine-grained estimation and metastable
decomposition consumed by `initial_model_discrete` (`bhmm/init/discrete.py`
lines 46-49): the pyemma MSM object (`nstates`, `active_set`,
`transition_matrix`, `metastable_distributions`) and PCCA object
(`memberships`, `coarse_grained_stationary_probability`). -/
structure FineMSM where
  nstates : ℕ
  active_set : List ℕ
  transition_matrix : List (List ℚ)
  metastable_distributions : List (List ℚ)
  memberships : List (List ℚ)
  coarse_pi : List ℚ
deriving DecidableEq

/-- The floor constant `eps = 0.01 * (1.0 / MSM.nstates)`
(`bhmm/init/discrete.py` line 56). -/
def eps_of (fineN : ℕ) : ℚ := (1 / 100) * (1 / (fineN : ℚ))

/-- Position of symbol `j` inside the active set, modelling the column
placement of the scatter assignment `B[:, MSM.active_set] = B_conn`
(`bhmm/init/discrete.py` line 59). -/
def idx_in (l : List ℕ) (j : ℕ) : Option ℕ :=
  match l with
  | [] => none
  | a :: t => if a = j then some 0 else (idx_in t j).map (· + 1)

/-- The emission matrix before row renormalization (`bhmm/init/discrete.py`
lines 56-59): `eps`-filled `(nstates, MSM.nstates)` matrix whose active-set
columns are overwritten by the columns of `B_conn`. -/
def emission_B_pre (fine : FineMSM) (nstates : ℕ) : List (List ℚ) :=
  (List.range nstates).map (fun i =>
    (List.range fine.nstates).map (fun j =>
      match idx_in fine.active_set j with
      | some k => (fine.metastable_distributions.getD i []).getD k 0
      | none => eps_of fine.nstates))

/-- Row renormalization `M / M.sum(axis=1)[:, None]` (`bhmm/init/discrete.py`
lines 61 and 74). -/
def row_normalize (M : List (List ℚ)) : List (List ℚ) :=
  M.map (fun row => row.map (fun x => x / row.sum))

/-- The full-symbol-space emission matrix `B` (`bhmm/init/discrete.py` lines
56-61). -/
def emission_matrix_B (fine : FineMSM) (nstates : ℕ) : List (List ℚ) :=
  row_normalize (emission_B_pre fine nstates)

/-- The symmetrize-floor-renormalize repair of the projected coarse matrix
(`bhmm/init/discrete.py` lines 69-74): `X = diag(coarse_pi) @ P_coarse`,
`X = np.maximum(X, eps)`, then row renormalization. -/
def coarse_repair (coarse_pi : List ℚ) (P_coarse : List (List ℚ)) (eps : ℚ) :
    List (List ℚ) :=
  row_normalize ((coarse_pi.zip P_coarse).map
    (fun pr => pr.2.map (fun x => max (pr.1 * x) eps)))

/-- Dot product of two vectors (`np.dot` on rows/columns). -/
def dotprod (a b : List ℚ) : ℚ := ((a.zip b).map (fun p => p.1 * p.2)).sum

/-- Matrix transpose over the row-list representation. -/
def transposeM (M : List (List ℚ)) : List (List ℚ) :=
  (List.range (M.headD []).length).map (fun j => M.map (fun r => r.getD j 0))

/-- Matrix product `np.dot(A, B)` over the row-list representation. -/
def matmul (A B : List (List ℚ)) : List (List ℚ) :=
  A.map (fun r => (transposeM B).map (fun c => dotprod r c))

/-- The embedded `initial_model_discrete` (`bhmm/init/discrete.py` lines
9-88). The external estimation results are the `fine` parameter and the
external `np.linalg.inv` is `np_inv`; the `reversible=False` branch only
emits a warning and rebinds the (afterwards unused) local flag, so the
parameter is accepted and ignored here. The final statement is the source's
call `HMM(nstates, A, output_model)`, whose positional binding puts the
integer `nstates` into the constructor's `Tij` slot, the repaired coarse
matrix `A` into its `output_model` slot and the `DiscreteOutputModel` into
its `lag` slot. -/
def initial_model_discrete (ana : MsmAna) (np_inv : List (List ℚ) → List (List ℚ))
    (fine : FineMSM) (nstates : ℕ) (reversible : Bool) : Except PyError HMM :=
  let _ := reversible
  let B := emission_matrix_B fine nstates
  let M := fine.memberships
  let W := np_inv (matmul (transposeM M) M)
  let A0 := matmul (matmul (transposeM M) fine.transition_matrix) M
  let P_coarse := matmul W A0
  let A := coarse_repair fine.coarse_pi P_coarse (eps_of fine.nstates)
  HMM.construct ana (PyVal.scalarInt (nstates : Int)) (PyVal.matrix A)
    (PyVal.discreteOM B) none true true

/-- Concrete `HMM` record used to instantiate theorems: an `n`-state model
with uniform transition matrix and initial distribution, a given stationarity
flag and a given (optional) assigned trajectory set. -/
def mkModel (n : ℕ) (st : Bool) (trajs : Option (List (List ℕ))) : HMM :=
  { Tij := List.replicate n (List.replicate n (1 / (n : ℚ))),
    nstates := n,
    lag := PyVal.scalarInt 1,
    output_model := PyVal.discreteOM [],
    hidden_state_trajectories := trajs,
    stationary := st,
    Pi := List.replicate n (1 / (n : ℚ)),
    reversible := true,
    R := [], D := [], L := [], eigenvalues := [] }

/-- Extracts the model from a successful construction (fallback value for the
error case); used to name concrete constructed models in witnesses. -/
def constructD (x : Except PyError HMM) : HMM :=
  match x with
  | .ok m => m
  | .error _ => mkModel 0 true none

/-- Stub external collaborator whose stationary-distribution solver returns
the uniform 2-state vector and whose decomposition returns empty arrays. -/
def anaStub : MsmAna :=
  { stationary_distribution := fun _ => [1/2, 1/2],
    is_reversible := fun _ => true,
    rdl_decomposition := fun _ _ => ([], [], []) }

/-- Stub external collaborator for the 2-state matrix `[[0.8,0.2],[0.5,0.5]]`
of the spec's test vector: its stationary distribution is `[5/7, 2/7]`. -/
def anaSpec : MsmAna :=
  { stationary_distribution := fun _ => [5/7, 2/7],
    is_reversible := fun _ => true,
    rdl_decomposition := fun _ _ => ([], [], []) }

/-- Stub external collaborator whose standard-normalization decomposition
returns a genuinely complex eigenpair (imaginary part 1). -/
def anaCplx : MsmAna :=
  { stationary_distribution := fun _ => [1/2, 1/2],
    is_reversible := fun _ => true,
    rdl_decomposition := fun _ n =>
      match n with
      | RdlNorm.standard => ([[((0 : ℚ), (1 : ℚ))]], [[((0 : ℚ), (1 : ℚ))]], [[((0 : ℚ), (1 : ℚ))]])
      | RdlNorm.reversible => ([], [], []) }

/-- Stub external collaborator returning a real 2 × 2 diagonal decomposition,
as the interface promises for a 2-state model. -/
def anaDiag : MsmAna :=
  { stationary_distribution := fun _ => [1/2, 1/2],
    is_reversible := fun _ => true,
    rdl_decomposition := fun _ _ =>
      ([[((1 : ℚ), (0 : ℚ)), ((0 : ℚ), (0 : ℚ))], [((0 : ℚ), (0 : ℚ)), ((1/2 : ℚ), (0 : ℚ))]],
       [[((1 : ℚ), (0 : ℚ)), ((0 : ℚ), (0 : ℚ))], [((0 : ℚ), (0 : ℚ)), ((1/2 : ℚ), (0 : ℚ))]],
       [[((1 : ℚ), (0 : ℚ)), ((0 : ℚ), (0 : ℚ))], [((0 : ℚ), (0 : ℚ)), ((1/2 : ℚ), (0 : ℚ))]]) }

/-- Concrete fine-grained estimation result whose metastable distributions
contain an exact zero in a connected (active-set) column: fine state space
`{0, 1}`, both symbols connected, `B_conn = [[1,0],[0,1]]`. -/
def cexFine : FineMSM :=
  { nstates := 2,
    active_set := [0, 1],
    transition_matrix := [[1, 0], [0, 1]],
    metastable_distributions := [[1, 0], [0, 1]],
    memberships := [[1, 0], [0, 1]],
    coarse_pi := [1/2, 1/2] }

deriving instance DecidableEq for Except

theorem sum_map_div (l : List ℚ) (s : ℚ) :
    (l.map (fun x => x / s)).sum = l.sum / s := by
  induction l with
  | nil => simp
  | cons a t ih => simp [ih, add_div]

theorem idx_in_eq_none {j : ℕ} : ∀ {l : List ℕ}, j ∉ l → idx_in l j = none := by
  intro l
  induction l with
  | nil => intro _; rfl
  | cons a t ih =>
      intro h
      have ha : ¬ (a = j) := fun e => h (e ▸ List.mem_cons_self a t)
      have ht : j ∉ t := fun e => h (List.mem_cons_of_mem a e)
      simp [idx_in, ha, ih ht]

theorem list_sum_pos : ∀ (l : List ℚ), l ≠ [] → (∀ x ∈ l, 0 < x) → 0 < l.sum := by
  intro l
  induction l with
  | nil => intro h _; exact absurd rfl h
  | cons a t ih =>
      intro _ hall
      have ha : 0 < a := hall a (List.mem_cons_self a t)
      have ht : 0 ≤ t.sum := by
        apply List.sum_nonneg
        intro x hx
        exact le_of_lt (hall x (List.mem_cons_of_mem a hx))
      simpa using add_pos_of_pos_of_nonneg ha ht

theorem diag_length (M : List (List Cq)) : (diag M).length = M.length := by
  simp [diag]

theorem construct_ok_fields (ana : MsmAna) (rows : List (List ℚ)) (om lag : PyVal)
    (Pi : Option (List ℚ)) (st rev : Bool) (m : HMM)
    (h : HMM.construct ana (PyVal.matrix rows) om lag Pi st rev = Except.ok m) :
    m.stationary = st ∧ m.reversible = rev ∧ m.nstates = rows.length ∧
      m.lag = lag ∧ m.Tij = rows ∧ m.hidden_state_trajectories = none ∧
      m.R = (eigendecomp ana rows rev).1 ∧ m.D = (eigendecomp ana rows rev).2.1 ∧
      m.L = (eigendecomp ana rows rev).2.2 ∧
      m.eigenvalues = diag (eigendecomp ana rows rev).2.1 := by
  unfold HMM.construct at h
  by_cases hT : is_transition_matrix (PyVal.matrix rows) = true
  · rw [if_pos hT] at h
    dsimp only at h
    cases hcp : checkPi Pi with
    | error e =>
        rw [hcp] at h
        exact absurd h (by simp)
    | ok Pin =>
        rw [hcp] at h
        dsimp only at h
        cases hrp : resolvePi ana rows Pin st with
        | error e =>
            rw [hrp] at h
            exact absurd h (by simp)
        | ok piRes =>
            rw [hrp] at h
            dsimp only at h
            cases hcr : checkReversible ana rows rev with
            | error e =>
                rw [hcr] at h
                exact absurd h (by simp)
            | ok u =>
                rw [hcr] at h
                dsimp only at h
                injection h with h
                subst h
                exact ⟨rfl, rfl, rfl, rfl, rfl, rfl, rfl, rfl, rfl, rfl⟩
  · rw [if_neg hT] at h
    exact absurd h (by simp)

/-- Claim C1: the spec says `initial_model_discrete` constructs and returns an
HMM with the repaired coarse matrix `A` as transition matrix. In the code the
call `HMM(nstates, A, output_model)` binds the integer `nstates` to the
constructor's first parameter `Tij`, so the stochastic-matrix assertion fails
and the estimator never returns an HMM, for every input and every external
collaborator. -/
theorem claim_C1_initializer_never_returns_hmm (ana : MsmAna)
    (np_inv : List (List ℚ) → List (List ℚ)) (fine : FineMSM) (nstates : ℕ)
    (rev : Bool) :
    initial_model_discrete ana np_inv fine nstates rev =
      Except.error (PyError.assertionError "Given transition matrix is not a stochastic matrix") := rfl

/-- Claim C2 (counterexample): on the assigned trajectories
`[[0,1,0],[1,1,0]]` over 2 states, `count_matrix` does not return
`[[1,1],[1,1]]` as the spec's test vector says. -/
theorem claim_C2_count_matrix_counterexample :
    (mkModel 2 true (some [[0, 1, 0], [1, 1, 0]])).count_matrix ≠
      Except.ok [[1, 1], [1, 1]] := by
  decide

/-- Claim C2 (amended): on the assigned trajectories `[[0,1,0],[1,1,0]]` over
2 states, `count_matrix` returns `[[0,1],[2,1]]` (transitions 0→1 once,
1→0 twice, 1→1 once). -/
theorem claim_C2_count_matrix (m : HMM) (h1 : m.nstates = 2)
    (h2 : m.hidden_state_trajectories = some [[0, 1, 0], [1, 1, 0]]) :
    m.count_matrix = Except.ok [[0, 1], [2, 1]] := by
  unfold HMM.count_matrix
  rw [h2]
  dsimp only
  rw [h1]
  decide

theorem claim_C2_count_matrix_witness :
    (mkModel 2 true (some [[0, 1, 0], [1, 1, 0]])).count_matrix
      = Except.ok [[0, 1], [2, 1]] :=
  claim_C2_count_matrix (mkModel 2 true (some [[0, 1, 0], [1, 1, 0]])) rfl rfl

/-- Claim C3 (counterexample): at `length = 0` the synthetic-state-trajectory
generator fails with an IndexError from the first-sample assignment on the
empty `np.zeros([0])` array — not with the `InvalidLength` error the spec
names. -/
theorem claim_C3_invalid_length_counterexample :
    (mkModel 2 true none).generate_synthetic_state_trajectory 0 (fun _ _ => 0) none
        = Except.error (PyError.indexError "index 0 is out of bounds for axis 0 with size 0") ∧
      PyError.indexError "index 0 is out of bounds for axis 0 with size 0" ≠ PyError.invalidLength :=
  ⟨rfl, by simp⟩

/-- Claim C3 (amended): for every `length < 1` the generator fails, but with
the incidental numpy errors — `ValueError` (negative dimensions) for negative
length, `IndexError` (first-sample assignment on an empty array) for length
zero — there is no dedicated `InvalidLength` validation in the code. -/
theorem claim_C3_invalid_length (m : HMM) (length : Int)
    (choice : ℕ → List ℚ → ℕ) (ipi : Option (List ℚ)) (h : length < 1) :
    m.generate_synthetic_state_trajectory length choice ipi =
      Except.error (if length < 0 then PyError.valueError "negative dimensions are not allowed"
        else PyError.indexError "index 0 is out of bounds for axis 0 with size 0") := by
  unfold HMM.generate_synthetic_state_trajectory
  by_cases hneg : length < 0
  · rw [if_pos hneg, if_pos hneg]
  · rw [if_neg hneg, if_neg hneg]
    have h0 : length.toNat = 0 := by omega
    rw [h0]

theorem claim_C3_invalid_length_witness :
    (mkModel 2 true none).generate_synthetic_state_trajectory 0 (fun _ _ => 0) none
      = Except.error (PyError.indexError "index 0 is out of bounds for axis 0 with size 0") := by
  have h := claim_C3_invalid_length (mkModel 2 true none) 0 (fun _ _ => 0) none (by decide)
  simpa using h

/-- Claim C7: on every successfully constructed model, the
`stationary_distribution` property returns exactly the stored initial
distribution when the model is stationary, and raises
`ValueError('HMM is not stationary')` when the model is free. -/
theorem claim_C7_stationary_distribution_query (ana : MsmAna) (rows : List (List ℚ))
    (om lag : PyVal) (Pi : Option (List ℚ)) (st rev : Bool) (m : HMM)
    (h : HMM.construct ana (PyVal.matrix rows) om lag Pi st rev = Except.ok m) :
    (st = true → m.stationary_distribution = Except.ok m.initial_distribution) ∧
    (st = false → m.stationary_distribution
        = Except.error (PyError.valueError "HMM is not stationary")) := by
  have hst := (construct_ok_fields ana rows om lag Pi st rev m h).1
  constructor
  · intro hs
    unfold HMM.stationary_distribution
    rw [hst, hs]
    rfl
  · intro hs
    unfold HMM.stationary_distribution
    rw [hst, hs]
    rfl

theorem claim_C7_stationary_distribution_query_witness :
    (constructD (HMM.construct anaStub (PyVal.matrix [[1]]) (PyVal.discreteOM [])
        (PyVal.scalarInt 1) none true true)).stationary_distribution
      = Except.ok (constructD (HMM.construct anaStub (PyVal.matrix [[1]]) (PyVal.discreteOM [])
        (PyVal.scalarInt 1) none true true)).initial_distribution :=
  (claim_C7_stationary_distribution_query anaStub [[1]] (PyVal.discreteOM [])
    (PyVal.scalarInt 1) none true true
    (constructD (HMM.construct anaStub (PyVal.matrix [[1]]) (PyVal.discreteOM [])
      (PyVal.scalarInt 1) none true true)) (by decide)).1 rfl

/-- Claim C10: `count_matrix` fails exactly when `hidden_state_trajectories`
is absent (`None`); an assigned empty trajectory list is not absence, and
yields the all-zero `nstates × nstates` matrix. -/
theorem claim_C10_count_matrix_absence (m : HMM) :
    ((∃ e, m.count_matrix = Except.error e) ↔ m.hidden_state_trajectories = none) ∧
    (m.hidden_state_trajectories = some [] →
      m.count_matrix = Except.ok (zeroMatrix m.nstates)) := by
  refine ⟨⟨?_, ?_⟩, ?_⟩
  · rintro ⟨e, he⟩
    cases htr : m.hidden_state_trajectories with
    | none => rfl
    | some ts =>
        unfold HMM.count_matrix at he
        rw [htr] at he
        exact absurd he (by simp)
  · intro hn
    refine ⟨PyError.runtimeError "HMM model does not have a hidden state trajectory.", ?_⟩
    unfold HMM.count_matrix
    rw [hn]
  · intro hs
    unfold HMM.count_matrix
    rw [hs]
    rfl

theorem claim_C10_count_matrix_absence_witness :
    (mkModel 3 true (some [])).count_matrix = Except.ok (zeroMatrix 3) :=
  (claim_C10_count_matrix_absence (mkModel 3 true (some []))).2 rfl

/-- Claim C9: constructing with `stationary=False` and no initial
distribution succeeds (the other constructor assertions passing) and the
stored initial distribution is the transition matrix's stationary
distribution anyway — the documented quirk of `hmm_class.py` lines 89-91. -/
theorem claim_C9_free_model_default (ana : MsmAna) (rows : List (List ℚ))
    (om lag : PyVal) (rev : Bool)
    (hT : is_transition_matrix (PyVal.matrix rows) = true)
    (hrev : rev = true → ana.is_reversible rows = true) :
    (HMM.construct ana (PyVal.matrix rows) om lag none false rev).map (fun m => m.Pi)
      = Except.ok (ana.stationary_distribution rows) := by
  cases rev with
  | false => simp [HMM.construct, hT, checkPi, resolvePi, checkReversible, Except.map]
  | true => simp [HMM.construct, hT, checkPi, resolvePi, checkReversible, hrev rfl, Except.map]

theorem claim_C9_free_model_default_witness :
    (HMM.construct anaStub (PyVal.matrix [[1]]) (PyVal.discreteOM [])
        (PyVal.scalarInt 1) none false true).map (fun m => m.Pi)
      = Except.ok [1/2, 1/2] :=
  claim_C9_free_model_default anaStub [[1]] (PyVal.discreteOM [])
    (PyVal.scalarInt 1) true (by decide) (fun _ => rfl)

/-- Claim C6: with `stationary=True` (the constructor's other assertions
passing): with no supplied initial distribution the model adopts the
stationary distribution of the transition matrix; with a supplied one,
construction succeeds storing the renormalized supplied vector exactly when
`np.allclose` accepts it against the stationary distribution, and fails with
the inconsistency assertion otherwise. -/
theorem claim_C6_stationary_initial (ana : MsmAna) (rows : List (List ℚ))
    (p : List ℚ) (om lag : PyVal) (rev : Bool)
    (hT : is_transition_matrix (PyVal.matrix rows) = true)
    (hrev : rev = true → ana.is_reversible rows = true)
    (hp : p.all (fun x => decide (0 ≤ x)) = true) :
    ((HMM.construct ana (PyVal.matrix rows) om lag none true rev).map (fun m => m.Pi)
        = Except.ok (ana.stationary_distribution rows)) ∧
    (np_allclose (pynormalize p) (ana.stationary_distribution rows) = true →
      (HMM.construct ana (PyVal.matrix rows) om lag (some p) true rev).map (fun m => m.Pi)
        = Except.ok (pynormalize p)) ∧
    (np_allclose (pynormalize p) (ana.stationary_distribution rows) = false →
      HMM.construct ana (PyVal.matrix rows) om lag (some p) true rev
        = Except.error (PyError.assertionError "Stationary HMM requested, but given distribution is not the stationary distribution of the given transition matrix.")) := by
  refine ⟨?_, ?_, ?_⟩
  · cases rev with
    | false => simp [HMM.construct, hT, checkPi, resolvePi, checkReversible, Except.map]
    | true => simp [HMM.construct, hT, checkPi, resolvePi, checkReversible, hrev rfl, Except.map]
  · intro hcl
    cases rev with
    | false => simp [HMM.construct, hT, checkPi, hp, resolvePi, hcl, checkReversible, Except.map]
    | true => simp [HMM.construct, hT, checkPi, hp, resolvePi, hcl, checkReversible, hrev rfl, Except.map]
  · intro hcl
    cases rev with
    | false => simp [HMM.construct, hT, checkPi, hp, resolvePi, hcl, checkReversible, Except.map]
    | true => simp [HMM.construct, hT, checkPi, hp, resolvePi, hcl, checkReversible, hrev rfl, Except.map]

theorem claim_C6_stationary_initial_witness :
    HMM.construct anaSpec (PyVal.matrix [[4/5, 1/5], [1/2, 1/2]]) (PyVal.discreteOM [])
        (PyVal.scalarInt 1) (some [1/2, 1/2]) true true
      = Except.error (PyError.assertionError "Stationary HMM requested, but given distribution is not the stationary distribution of the given transition matrix.") :=
  (claim_C6_stationary_initial anaSpec [[4/5, 1/5], [1/2, 1/2]] [1/2, 1/2]
    (PyVal.discreteOM []) (PyVal.scalarInt 1) true (by decide) (fun _ => rfl)
    (by decide)).2.2 (by decide)

/-- Claim C4 (counterexample): a model constructed with `reversible=False`
keeps the complex eigenvalues returned by the standard-normalization
decomposition — here the stored eigenvalue has imaginary part 1, so the
eigenpairs of the non-reversible branch are not truncated to their real
components. -/
theorem claim_C4_eigendecomposition_counterexample :
    (HMM.construct anaCplx (PyVal.matrix [[0, 1], [1, 0]]) (PyVal.discreteOM [])
        (PyVal.scalarInt 1) none true false).map (fun m => m.eigenvalues)
      = Except.ok [((0 : ℚ), (1 : ℚ))] ∧ ((0 : ℚ), (1 : ℚ)).2 ≠ (0 : ℚ) := by
  constructor
  · decide
  · decide

/-- Claim C4 (amended): on every successfully constructed model, the
`reversible=False` branch uses the standard normalization and stores the
returned eigenpairs unmodified (complex parts retained), while the
`reversible=True` branch uses the reversibility-aware normalization and
truncates `R`, `D`, `L` (hence the eigenvalues) to their real components. -/
theorem claim_C4_eigendecomposition (ana : MsmAna) (rows : List (List ℚ))
    (om lag : PyVal) (Pi : Option (List ℚ)) (st rev : Bool) (m : HMM)
    (h : HMM.construct ana (PyVal.matrix rows) om lag Pi st rev = Except.ok m) :
    (rev = false →
      m.R = (ana.rdl_decomposition rows RdlNorm.standard).1 ∧
      m.D = (ana.rdl_decomposition rows RdlNorm.standard).2.1 ∧
      m.L = (ana.rdl_decomposition rows RdlNorm.standard).2.2 ∧
      m.eigenvalues = diag (ana.rdl_decomposition rows RdlNorm.standard).2.1) ∧
    (rev = true →
      m.R = mat_real (ana.rdl_decomposition rows RdlNorm.reversible).1 ∧
      m.D = mat_real (ana.rdl_decomposition rows RdlNorm.reversible).2.1 ∧
      m.L = mat_real (ana.rdl_decomposition rows RdlNorm.reversible).2.2 ∧
      m.eigenvalues = diag (mat_real (ana.rdl_decomposition rows RdlNorm.reversible).2.1)) := by
  obtain ⟨-, -, -, -, -, -, hR, hD, hL, hE⟩ := construct_ok_fields ana rows om lag Pi st rev m h
  constructor
  · intro hrev
    subst hrev
    refine ⟨?_, ?_, ?_, ?_⟩
    · simpa [eigendecomp] using hR
    · simpa [eigendecomp] using hD
    · simpa [eigendecomp] using hL
    · simpa [eigendecomp] using hE
  · intro hrev
    subst hrev
    refine ⟨?_, ?_, ?_, ?_⟩
    · simpa [eigendecomp] using hR
    · simpa [eigendecomp] using hD
    · simpa [eigendecomp] using hL
    · simpa [eigendecomp] using hE

theorem claim_C4_eigendecomposition_witness :
    (constructD (HMM.construct anaCplx (PyVal.matrix [[0, 1], [1, 0]]) (PyVal.discreteOM [])
        (PyVal.scalarInt 1) none true false)).eigenvalues
      = diag ((anaCplx.rdl_decomposition [[0, 1], [1, 0]] RdlNorm.standard).2.1) :=
  ((claim_C4_eigendecomposition anaCplx [[0, 1], [1, 0]] (PyVal.discreteOM [])
    (PyVal.scalarInt 1) none true false
    (constructD (HMM.construct anaCplx (PyVal.matrix [[0, 1], [1, 0]]) (PyVal.discreteOM [])
      (PyVal.scalarInt 1) none true false)) (by decide)).1 rfl).2.2.2

/-- Claim C8: on every successfully constructed model whose external
decomposition returned an `nstates × nstates` diagonal factor (the interface
guarantee), `timescales()` returns exactly `nstates - 1` values, namely
`-lag / ln |λ|` for each eigenvalue after the leading one. -/
theorem claim_C8_timescales (ana : MsmAna) (rows : List (List ℚ))
    (om lag : PyVal) (Pi : Option (List ℚ)) (st rev : Bool) (m : HMM)
    (h : HMM.construct ana (PyVal.matrix rows) om lag Pi st rev = Except.ok m)
    (hD : (eigendecomp ana rows rev).2.1.length = rows.length) :
    m.timescales.length = m.nstates - 1 ∧
    m.timescales = (m.eigenvalues.drop 1).map
      (fun l => -(m.lag.toQ : ℝ) / Real.log (cq_abs l)) := by
  obtain ⟨-, -, hn, -, -, -, -, -, -, hE⟩ := construct_ok_fields ana rows om lag Pi st rev m h
  constructor
  · unfold HMM.timescales timescales_from_eigenvalues
    rw [hE]
    simp [diag_length, hD, hn]
  · unfold HMM.timescales timescales_from_eigenvalues
    exact (List.map_drop _ m.eigenvalues 1).symm

theorem claim_C8_timescales_witness :
    (constructD (HMM.construct anaDiag (PyVal.matrix [[0, 1], [1, 0]]) (PyVal.discreteOM [])
        (PyVal.scalarInt 1) none true false)).timescales.length
      = (constructD (HMM.construct anaDiag (PyVal.matrix [[0, 1], [1, 0]]) (PyVal.discreteOM [])
        (PyVal.scalarInt 1) none true false)).nstates - 1 :=
  (claim_C8_timescales anaDiag [[0, 1], [1, 0]] (PyVal.discreteOM [])
    (PyVal.scalarInt 1) none true false
    (constructD (HMM.construct anaDiag (PyVal.matrix [[0, 1], [1, 0]]) (PyVal.discreteOM [])
      (PyVal.scalarInt 1) none true false)) (by decide) (by decide)).1

/-- Claim C5 (counterexample): the emission matrix built by the discrete
initializer can contain an exact zero: with both symbols connected
(`active_set = [0, 1]`) and metastable distributions `[[1,0],[0,1]]`, the
entry at row 0, column 1 of `B` is exactly 0, and the pre-normalization entry
is below the floor `0.01 / fineStateCount` — the floor is applied only to
unconnected entries, not to the whole matrix. -/
theorem claim_C5_initializer_matrices_counterexample :
    ((emission_matrix_B cexFine 2).getD 0 []).getD 1 0 = 0 ∧
    ((emission_B_pre cexFine 2).getD 0 []).getD 1 0 < eps_of cexFine.nstates := by
  constructor
  · decide
  · decide

/-- Claim C5 (amended): before renormalization every entry of `B` in an
unconnected column equals the positive floor `0.01 / fineStateCount`
(connected columns carry the fine conditional probabilities, which may be
zero); after renormalization every row of `B` with positive pre-normalization
sum sums to 1; and the symmetrize-floor-renormalize repair of the projected
coarse matrix always returns a row-stochastic matrix (non-negative entries,
rows summing to 1) for any projected input, including one with negative
entries. -/
theorem claim_C5_initializer_matrices (fine : FineMSM) (n : ℕ) (cpi : List ℚ)
    (P : List (List ℚ)) (eps : ℚ)
    (hfine : 0 < fine.nstates)
    (hBsum : ∀ row ∈ emission_B_pre fine n, 0 < row.sum)
    (heps : 0 < eps)
    (hProws : ∀ row ∈ P, row ≠ []) :
    (∀ row ∈ emission_B_pre fine n, ∀ j, j < fine.nstates → j ∉ fine.active_set →
        row.getD j 0 = eps_of fine.nstates) ∧
    (0 < eps_of fine.nstates) ∧
    (∀ row ∈ emission_matrix_B fine n, row.sum = 1) ∧
    (∀ row ∈ coarse_repair cpi P eps, (∀ x ∈ row, 0 ≤ x) ∧ row.sum = 1) := by
  refine ⟨?_, ?_, ?_, ?_⟩
  · intro row hrow j hj hnotin
    unfold emission_B_pre at hrow
    obtain ⟨i, hi, rfl⟩ := List.mem_map.1 hrow
    have hlen : j < ((List.range fine.nstates).map (fun j =>
        match idx_in fine.active_set j with
        | some k => (fine.metastable_distributions.getD i []).getD k 0
        | none => eps_of fine.nstates)).length := by
      simpa using hj
    rw [List.getD_eq_getElem _ _ hlen]
    simp [idx_in_eq_none hnotin]
  · unfold eps_of
    have hcast : (0 : ℚ) < (fine.nstates : ℚ) := by exact_mod_cast hfine
    exact mul_pos (by norm_num) (one_div_pos.2 hcast)
  · intro row hrow
    unfold emission_matrix_B row_normalize at hrow
    obtain ⟨b, hb, rfl⟩ := List.mem_map.1 hrow
    have hs := hBsum b hb
    rw [sum_map_div]
    exact div_self (ne_of_gt hs)
  · intro row hrow
    unfold coarse_repair row_normalize at hrow
    obtain ⟨x, hx, rfl⟩ := List.mem_map.1 hrow
    obtain ⟨pr, hpr, rfl⟩ := List.mem_map.1 hx
    obtain ⟨c, r⟩ := pr
    have hrP : r ∈ P := (List.of_mem_zip hpr).2
    have hrne : r ≠ [] := hProws r hrP
    have hxne : r.map (fun v => max (c * v) eps) ≠ [] := by
      simpa [List.map_eq_nil_iff] using hrne
    have hallpos : ∀ y ∈ r.map (fun v => max (c * v) eps), 0 < y := by
      intro y hy
      obtain ⟨v, hv, rfl⟩ := List.mem_map.1 hy
      exact lt_of_lt_of_le heps (le_max_right _ _)
    have hspos : 0 < (r.map (fun v => max (c * v) eps)).sum :=
      list_sum_pos _ hxne hallpos
    constructor
    · intro z hz
      obtain ⟨y, hy, rfl⟩ := List.mem_map.1 hz
      exact div_nonneg (le_of_lt (hallpos y hy)) (le_of_lt hspos)
    · rw [sum_map_div]
      exact div_self (ne_of_gt hspos)

theorem claim_C5_initializer_matrices_witness :
    ((coarse_repair [1] [[(-1 : ℚ), 1]] (1/10)).getD 0 []).sum = 1 :=
  ((claim_C5_initializer_matrices cexFine 2 [1] [[(-1 : ℚ), 1]] (1/10)
      (by decide) (by decide) (by decide) (by decide)).2.2.2
    ((coarse_repair [1] [[(-1 : ℚ), 1]] (1/10)).getD 0 []) (by decide)).2
